import Mathlib

/-!
Verification development for the phantom tunneling proxy server (Go sources).

Shallow embedding conventions:
* Bytes are `Nat` (wire inputs carry values < 256; where a claim needs the
  bound it appears as a hypothesis).
* Go `uint32`/`uint16` fields are modeled as `Nat`; big-endian byte layouts
  are modeled explicitly (`be32`, `beU32`, ...).  Sequence-number wraparound
  at 2^32 (which would need more than 2^32 segments of traffic) is out of
  scope of the claims and is not modeled.
* Wall-clock time is passed explicitly (`now : Nat`, unix seconds for the
  crypto layer, nanoseconds for the ARQ layer), turning the stateful Go code
  into state-passing functions.
* `sync.Map`s are modeled as association lists (`List (key × value)`), with
  `lookupA` / `eraseA` / `loadOrStore` mirroring `Load` / `Delete` /
  `LoadOrStore`.
* The XChaCha20-Poly1305 AEAD and the HKDF key derivation are library
  primitives (golang.org/x/crypto), not repository code; they are modeled as
  an ideal AEAD: a ciphertext is either a sealed record of
  (key, nonce, aad, plaintext), which opens exactly under the matching
  key/nonce/aad, or opaque junk that opens under no key (a tag mismatch).
  Subkeys are modeled as the pair (psk, window) that HKDF derives them from.

The repository file `internal/crypto/crypto.go` contains two draft variants
of the envelope code; they are embedded side by side as namespaces
`CryptoV1` (the first draft, replay ledger `replayCache`, recorded via
`LoadOrStore` before AEAD open) and `CryptoV2` (the second draft, ledger
`recvNonceCache`, recorded only after a successful open).
-/

namespace G2

/-- Big-endian 16-bit value from two bytes (binary.BigEndian.Uint16). -/
def beU16 (b0 b1 : Nat) : Nat := b0 * 256 + b1

/-- Big-endian 32-bit value from four bytes (binary.BigEndian.Uint32). -/
def beU32 (b0 b1 b2 b3 : Nat) : Nat := ((b0 * 256 + b1) * 256 + b2) * 256 + b3

/-- Big-endian encoding of a 16-bit value (binary.BigEndian.PutUint16). -/
def be16 (n : Nat) : List Nat := [n / 256 % 256, n % 256]

/-- Big-endian encoding of a 32-bit value (binary.BigEndian.PutUint32). -/
def be32 (n : Nat) : List Nat := [n / 16777216 % 256, n / 65536 % 256, n / 256 % 256, n % 256]

/-- Association-list lookup, modeling sync.Map.Load / Go map indexing. -/
def lookupA {α β : Type} [DecidableEq α] : List (α × β) → α → Option β
  | [], _ => none
  | (k, v) :: rest, key => if k = key then some v else lookupA rest key

/-- Association-list removal of the (first) binding, modeling delete(...). -/
def eraseA {α β : Type} [DecidableEq α] : List (α × β) → α → List (α × β)
  | [], _ => []
  | (k, v) :: rest, key => if k = key then rest else (k, v) :: eraseA rest key

/-- Atomic test-and-set insert, modeling sync.Map.LoadOrStore: returns
whether the key was already present, and the (possibly extended) map. -/
def loadOrStore {α β : Type} [DecidableEq α] (m : List (α × β)) (k : α) (v : β) :
    Bool × List (α × β) :=
  match lookupA m k with
  | some _ => (true, m)
  | none => (false, m ++ [(k, v)])

theorem lookupA_eq_none {α β : Type} [DecidableEq α] (m : List (α × β)) (k : α) :
    lookupA m k = none ↔ k ∉ m.map Prod.fst := by
  induction m with
  | nil => simp [lookupA]
  | cons hd tl ih =>
    obtain ⟨a, b⟩ := hd
    by_cases h : a = k
    · subst h
      simp [lookupA]
    · simp [lookupA, h, ih, Ne.symm h]

theorem lookupA_append {α β : Type} [DecidableEq α] (m1 m2 : List (α × β)) (k : α) :
    lookupA (m1 ++ m2) k =
      match lookupA m1 k with
      | some v => some v
      | none => lookupA m2 k := by
  induction m1 with
  | nil => simp [lookupA]
  | cons hd tl ih =>
    obtain ⟨a, b⟩ := hd
    by_cases h : a = k <;> simp [lookupA, h, ih]

theorem lookupA_filter_eq_none {α β : Type} [DecidableEq α]
    (m : List (α × β)) (k : α) (q : α × β → Bool)
    (h : lookupA m k = none) : lookupA (m.filter q) k = none := by
  rw [lookupA_eq_none] at h ⊢
  intro hmem
  exact h (by
    rcases List.mem_map.mp hmem with ⟨e, he, hfst⟩
    exact List.mem_map.mpr ⟨e, List.mem_of_mem_filter he, hfst⟩)

/- ======================= Cryptographic envelope ======================= -/

/-- Subkey handle: HKDF(psk, salt = window, info = "phantom-key-v3") is a
library primitive modeled as the injective pair of its inputs. -/
structure SubKey where
  psk : List Nat
  window : Int
deriving DecidableEq

/-- Modeled HKDF subkey derivation for a time window (getAEAD key material). -/
def deriveKey (psk : List Nat) (w : Int) : SubKey := ⟨psk, w⟩

/-- Modeled HKDF UserID derivation (info = "phantom-userid-v3"): an
injective-enough deterministic 4-byte function of the PSK. -/
def deriveUserID (psk : List Nat) : List Nat := psk.take 4

/-- Ideal AEAD ciphertext-with-tag: either a sealed record, or junk bytes
whose Poly1305 tag matches no candidate key. -/
inductive Ct
  | sealed (key : SubKey) (nonce : List Nat) (aad : List Nat) (pt : List Nat)
  | junk (id : Nat)
deriving DecidableEq

/-- Ideal AEAD seal (aead.Seal). -/
def aeadSeal (key : SubKey) (nonce aad pt : List Nat) : Ct := .sealed key nonce aad pt

/-- Ideal AEAD open (aead.Open): succeeds exactly on a sealed record with
matching key, nonce and AAD. -/
def aeadOpen (key : SubKey) (nonce aad : List Nat) : Ct → Option (List Nat)
  | .sealed k n a p => if k = key ∧ n = nonce ∧ a = aad then some p else none
  | .junk _ => none

/-- Envelope, parsed form of
UserID(4) ++ TimestampLow(2 BE) ++ Nonce(12) ++ Ciphertext ++ Tag(16).
The Decrypt minimum-length check (34 bytes) corresponds to this structural
parse succeeding and is not separately modeled. -/
structure Envelope where
  userID : List Nat
  tsLow : Nat
  nonce : List Nat
  ct : Ct
deriving DecidableEq

/-- Six-byte AAD header UserID(4) ++ TimestampLow(2 BE) of an envelope. -/
def headerOf (e : Envelope) : List Nat := e.userID ++ [e.tsLow / 256 % 256, e.tsLow % 256]

/-- Timestamp freshness check, translated from validateTimestamp: the raw
difference of the 16-bit residues is wrap-adjusted into range and its
absolute value compared against 2·W. -/
def validateTimestamp (timeWindow : Nat) (now : Nat) (ts : Nat) : Bool :=
  let current : Int := ((now % 65536 : Nat) : Int)
  let diff0 : Int := current - (ts : Int)
  let diff1 : Int :=
    if diff0 < -32768 then diff0 + 65536
    else if diff0 > 32768 then diff0 - 65536
    else diff0
  let diff2 : Int := if diff1 < 0 then -diff1 else diff1
  decide (diff2 ≤ (timeWindow : Int) * 2)

/-- Circular (wrap-around) distance of two 16-bit values, the spec's
"wrap-adjusted absolute difference". -/
def circDist (a b : Nat) : Nat :=
  let d := ((a : Int) - (b : Int)).natAbs
  min d (65536 - d)

/-- Current key window number (currentWindow): unix seconds / W. -/
def currentWindow (timeWindow : Nat) (now : Nat) : Int := ((now / timeWindow : Nat) : Int)

/-- Candidate decryption windows (validWindows): previous, current, next. -/
def validWindows (timeWindow : Nat) (now : Nat) : List Int :=
  [currentWindow timeWindow now - 1, currentWindow timeWindow now,
   currentWindow timeWindow now + 1]

/-- Decryption failures distinguished by Decrypt (the Go code returns
distinct error strings for each). -/
inductive DecErr
  | badUserID
  | badTimestamp
  | replay
  | authFail
deriving DecidableEq

/-- AEAD-open attempt loop over the candidate windows (the for-loop over
validWindows inside Decrypt); stops at the first success. -/
def tryWindows (psk : List Nat) (ws : List Int) (nonce aad : List Nat) (ct : Ct) :
    Option (List Nat) :=
  match ws with
  | [] => none
  | w :: rest =>
    match aeadOpen (deriveKey psk w) nonce aad ct with
    | some pt => some pt
    | none => tryWindows psk rest nonce aad ct

theorem tryWindows_sealed_mem (psk : List Nat) (ws : List Int) (nonce aad pt : List Nat)
    (w0 : Int) (hmem : w0 ∈ ws) :
    tryWindows psk ws nonce aad (Ct.sealed (deriveKey psk w0) nonce aad pt) = some pt := by
  induction ws with
  | nil => cases hmem
  | cons w rest ih =>
    by_cases h : deriveKey psk w0 = deriveKey psk w
    · simp [tryWindows, aeadOpen, h]
    · have hw : w0 ≠ w := by
        intro he
        exact h (by rw [he])
      rcases List.mem_cons.mp hmem with he | htail
      · exact absurd he hw
      · simp [tryWindows, aeadOpen, h, ih htail]

end G2

namespace G2.CryptoV1

open G2

/-- State of the first crypto draft: PSK, derived identity tag, time window,
and the replay ledger (replayCache : nonce → observation time).  The
per-window AEAD cache is a pure memoization of deriveKey and needs no state. -/
structure St where
  psk : List Nat
  userID : List Nat
  timeWindow : Nat
  replayCache : List (List Nat × Nat)
deriving DecidableEq

/-- Constructor New (after PSK decode and length validation). -/
def mk (psk : List Nat) (timeWindow : Nat) : St :=
  { psk := psk, userID := deriveUserID psk, timeWindow := timeWindow, replayCache := [] }

/-- Encrypt of the first draft: seal under the current window's subkey with
the 6-byte header as AAD; the random 12-byte nonce is passed in explicitly. -/
def Encrypt (c : St) (now : Nat) (nonce : List Nat) (pt : List Nat) : Envelope :=
  let ts := now % 65536
  { userID := c.userID, tsLow := ts, nonce := nonce,
    ct := aeadSeal (deriveKey c.psk (currentWindow c.timeWindow now)) nonce
      (c.userID ++ [ts / 256 % 256, ts % 256]) pt }

/-- Decrypt of the first draft: UserID check, timestamp check, then the
replay check via LoadOrStore (which records the nonce BEFORE any AEAD open
is attempted), then the open loop over the three candidate windows. -/
def Decrypt (c : St) (e : Envelope) (now : Nat) : Except DecErr (List Nat) × St :=
  if e.userID ≠ c.userID then (.error .badUserID, c)
  else if ¬ validateTimestamp c.timeWindow now e.tsLow then (.error .badTimestamp, c)
  else
    match loadOrStore c.replayCache e.nonce now with
    | (true, _) => (.error .replay, c)
    | (false, cache2) =>
      let c2 : St := { c with replayCache := cache2 }
      match tryWindows c.psk (validWindows c.timeWindow now) e.nonce (headerOf e) e.ct with
      | some pt => (.ok pt, c2)
      | none => (.error .authFail, c2)

/-- Replay-ledger sweep of cleanupLoop: drop entries older than 2 minutes. -/
def cleanup (now : Nat) (c : St) : St :=
  { c with replayCache := c.replayCache.filter (fun e => decide ((now : Int) - (e.2 : Int) ≤ 120)) }

end G2.CryptoV1

namespace G2.CryptoV2

open G2

/-- State of the second crypto draft: separate received-nonce and sent-nonce
ledgers (recvNonceCache / sendNonceCache). -/
structure St where
  psk : List Nat
  userID : List Nat
  timeWindow : Nat
  recvNonceCache : List (List Nat × Nat)
  sendNonceCache : List (List Nat × Nat)
deriving DecidableEq

/-- Constructor New of the second draft. -/
def mk (psk : List Nat) (timeWindow : Nat) : St :=
  { psk := psk, userID := deriveUserID psk, timeWindow := timeWindow,
    recvNonceCache := [], sendNonceCache := [] }

/-- Decrypt of the second draft: replay check is a plain Load on the
received-nonce ledger, and the nonce is stored only after a successful open. -/
def Decrypt (c : St) (e : Envelope) (now : Nat) : Except DecErr (List Nat) × St :=
  if e.userID ≠ c.userID then (.error .badUserID, c)
  else if ¬ validateTimestamp c.timeWindow now e.tsLow then (.error .badTimestamp, c)
  else
    match lookupA c.recvNonceCache e.nonce with
    | some _ => (.error .replay, c)
    | none =>
      match tryWindows c.psk (validWindows c.timeWindow now) e.nonce (headerOf e) e.ct with
      | some pt => (.ok pt, { c with recvNonceCache := c.recvNonceCache ++ [(e.nonce, now)] })
      | none => (.error .authFail, c)

/-- Received-nonce sweep of the second draft's cleanupLoop. -/
def cleanup (now : Nat) (c : St) : St :=
  { c with recvNonceCache :=
      c.recvNonceCache.filter (fun e => decide ((now : Int) - (e.2 : Int) ≤ 120)) }

end G2.CryptoV2

/- ======================= Control protocol (protocol.go) ======================= -/

namespace G2.Proto

open G2

def TypeConnect : Nat := 1
def TypeData : Nat := 2
def TypeClose : Nat := 3

def AddrIPv4 : Nat := 1
def AddrIPv6 : Nat := 4
def AddrDomain : Nat := 3

def NetworkTCP : Nat := 1
def NetworkUDP : Nat := 2

/-- Parsed request (struct Request). -/
structure Request where
  type : Nat
  reqID : Nat
  network : Nat
  address : String
  port : Nat
  data : List Nat
deriving DecidableEq

/-- Parse failures of ParseRequest / parseConnect; each constructor
corresponds to one of the Go error returns. -/
inductive ParseErr
  | tooShort
  | unknownType
  | connectShort
  | ipv4Short
  | ipv6Short
  | domainLenMissing
  | domainShort
  | unknownAddrType
deriving DecidableEq

/-- Lowercase hexadecimal digit character. -/
def hexDigitChar (n : Nat) : Char :=
  if n < 10 then Char.ofNat (48 + n) else Char.ofNat (87 + n)

/-- Hexadecimal digits of n, most significant first (fuel bounds recursion). -/
def hexStrAux : Nat → Nat → List Char
  | 0, _ => []
  | fuel + 1, n => if n = 0 then [] else hexStrAux fuel (n / 16) ++ [hexDigitChar (n % 16)]

/-- Lowercase hexadecimal rendering of a 16-bit group without leading zeros. -/
def hexStr (n : Nat) : String :=
  if n = 0 then "0" else String.mk (hexStrAux 8 n)

/-- Dotted-quad rendering of 4 bytes (net.IP.String for IPv4). -/
def ipv4Str (b : List Nat) : String :=
  String.intercalate "." (b.map (fun x => toString x))

/-- Length of the run of zero groups starting at the head. -/
def runLen : List Nat → Nat
  | 0 :: rest => runLen rest + 1
  | _ => 0

/-- Earliest longest run (start, length) of at least two zero groups; these
are the groups net.IP.String compresses to a double colon. -/
def bestZeroRun (gs : List Nat) : Option (Nat × Nat) :=
  ((List.range gs.length).map (fun i => (i, runLen (gs.drop i)))).foldl
    (fun best c =>
      match best with
      | none => if 2 ≤ c.2 then some c else none
      | some b => if b.2 < c.2 then some c else some b) none

/-- RFC 5952 rendering of eight 16-bit groups (net.IP.String for IPv6). -/
def ipv6Str (gs : List Nat) : String :=
  match bestZeroRun gs with
  | none => String.intercalate ":" (gs.map hexStr)
  | some (s, l) =>
    String.intercalate ":" ((gs.take s).map hexStr) ++ "::" ++
      String.intercalate ":" ((gs.drop (s + l)).map hexStr)

/-- The eight big-endian 16-bit groups of 16 address bytes. -/
def groups16 : List Nat → List Nat
  | b0 :: b1 :: rest => beU16 b0 b1 :: groups16 rest
  | _ => []

/-- Go's To4 test on a 16-byte address: ten zero bytes then 0xff 0xff. -/
def isV4InV6 (b : List Nat) : Bool :=
  decide (b.take 10 = List.replicate 10 0) && decide ((b.drop 10).take 2 = [255, 255])

/-- Modeled net.IP.String (library primitive) for the 4- and 16-byte
addresses the parser produces: dotted quad for IPv4 and for IPv4-mapped
IPv6, RFC 5952 text (with double-colon compression, no brackets) otherwise. -/
def netIPString (b : List Nat) : String :=
  if b.length = 4 then ipv4Str b
  else if b.length = 16 then
    if isV4InV6 b then ipv4Str (b.drop 12) else ipv6Str (groups16 b)
  else ""

/-- Raw-byte string conversion, modeling Go's string(bytes) for the domain. -/
def strOfBytes (b : List Nat) : String := String.mk (b.map Char.ofNat)

/-- Port and trailing initial payload at the end of a CONNECT body
(the final lines of parseConnect); the preceding length checks guarantee at
least two bytes remain, so the fallback is unreachable. -/
def finishConnect (req : Request) (rem : List Nat) : Except ParseErr Request :=
  match rem with
  | p0 :: p1 :: tail => .ok { req with port := beU16 p0 p1, data := tail }
  | _ => .error .connectShort

/-- Translation of parseConnect: network byte is copied unvalidated; the
address-type byte selects fixed-size IPv4/IPv6 or length-prefixed domain
parsing, each with a remaining-length check covering the 2 port bytes. -/
def parseConnect (req : Request) (data : List Nat) : Except ParseErr Request :=
  if data.length < 4 then .error .connectShort
  else
    match data with
    | nw :: aty :: rest =>
      if aty = AddrIPv4 then
        if rest.length < 6 then .error .ipv4Short
        else finishConnect { req with network := nw, address := netIPString (rest.take 4) }
          (rest.drop 4)
      else if aty = AddrIPv6 then
        if rest.length < 18 then .error .ipv6Short
        else finishConnect { req with network := nw, address := netIPString (rest.take 16) }
          (rest.drop 16)
      else if aty = AddrDomain then
        match rest with
        | [] => .error .domainLenMissing
        | dlen :: rest2 =>
          if rest2.length < dlen + 2 then .error .domainShort
          else finishConnect { req with network := nw, address := strOfBytes (rest2.take dlen) }
            (rest2.drop dlen)
      else .error .unknownAddrType
    | _ => .error .connectShort

/-- Translation of ParseRequest: Type(1) + ReqID(4) prefix, then the
type-specific body. -/
def ParseRequest (data : List Nat) : Except ParseErr Request :=
  match data with
  | t :: r1 :: r2 :: r3 :: r4 :: rest =>
    let req : Request :=
      { type := t, reqID := beU32 r1 r2 r3 r4, network := 0, address := "", port := 0,
        data := [] }
    if t = TypeConnect then parseConnect req rest
    else if t = TypeData then .ok { req with data := rest }
    else if t = TypeClose then .ok req
    else .error .unknownType
  | _ => .error .tooShort

/-- Translation of TargetAddr: Sprintf of address, a colon, and the decimal
port, with no bracketing of any address kind. -/
def TargetAddr (r : Request) : String :=
  if r.address = "" then "" else r.address ++ ":" ++ toString r.port

end G2.Proto

/- ======================= ARQ engine (arq.go, first draft) ======================= -/

namespace G2.Arq

open G2

def HeaderSize : Nat := 11
def MaxSegment : Nat := 1200
def MaxInFlight : Nat := 256
def MaxRetries : Nat := 10

/-- Durations in nanoseconds, mirroring Go time.Duration values. -/
def InitialRTO : Nat := 500000000

def MinRTO : Nat := 100000000

def MaxRTO : Nat := 5000000000

def FlagData : Nat := 0
def FlagAck : Nat := 1
def FlagPing : Nat := 2
def FlagPong : Nat := 3
def FlagFin : Nat := 4

/-- Error values of the ARQ package. -/
inductive ArqErr
  | closedConn
  | timeout
  | bufferFull
  | invalidData
deriving DecidableEq

/-- In-flight send-buffer entry (struct Packet). -/
structure Packet where
  seq : Nat
  data : List Nat
  sentAt : Nat
  retries : Nat
deriving DecidableEq

/-- Counters (struct Stats). -/
structure Stats where
  packetsSent : Nat := 0
  packetsRecv : Nat := 0
  packetsRetrans : Nat := 0
  packetsDropped : Nat := 0
  bytesSent : Nat := 0
  bytesRecv : Nat := 0
deriving DecidableEq

/-- ARQ connection state (struct Conn).  The channel recvReady is the
bounded (64) delivery queue; `delivered` is a ghost log recording every
invocation of deliverDataLocked as a (sequence number, payload) pair — it
corresponds to no Go field and is used only to phrase ordering claims. -/
structure Conn where
  sendSeq : Nat
  sendBuf : List (Nat × Packet)
  recvSeq : Nat
  recvBuf : List (Nat × List Nat)
  recvReady : List (List Nat)
  lastRecvAt : Nat
  srtt : Nat
  rttvar : Nat
  rto : Nat
  closed : Bool
  closeErr : Option ArqErr
  stats : Stats
  delivered : List (Nat × List Nat)
deriving DecidableEq

/-- Constructor New. -/
def mkConn (now : Nat) : Conn :=
  { sendSeq := 1, sendBuf := [], recvSeq := 1, recvBuf := [], recvReady := [],
    lastRecvAt := now, srtt := 0, rttvar := 0, rto := InitialRTO, closed := false,
    closeErr := none, stats := {}, delivered := [] }

/-- Translation of buildFrame:
Seq(4 BE) ++ Ack(4 BE) ++ Flags(1) ++ Length(2 BE) ++ Payload. -/
def buildFrame (seq ack flags : Nat) (payload : List Nat) : List Nat :=
  be32 seq ++ be32 ack ++ [flags] ++ be16 payload.length ++ payload

/-- Translation of updateRTT (RFC 6298 smoothing with clamped RTO). -/
def updateRTT (c : Conn) (sample : Nat) : Conn :=
  let p : Nat × Nat :=
    if c.srtt = 0 then (sample, sample / 2)
    else
      let diff := ((c.srtt : Int) - (sample : Int)).natAbs
      ((7 * c.srtt + sample) / 8, (3 * c.rttvar + diff) / 4)
  let rto0 := p.1 + 4 * p.2
  let rto1 := if rto0 < MinRTO then MinRTO else rto0
  let rto2 := if rto1 > MaxRTO then MaxRTO else rto1
  { c with srtt := p.1, rttvar := p.2, rto := rto2 }

/-- Body of handleAck's loop over the send buffer: entries with seq ≤ ack
are removed, and each removed entry that was never retransmitted feeds
now − sentAt into updateRTT.  Returns the updated RTT state, the remaining
buffer, the ghost list of RTT samples consumed, and the acked flag. -/
def handleAckGo (now ack : Nat) (entries : List (Nat × Packet)) (c : Conn) :
    Conn × List (Nat × Packet) × List Nat × Bool :=
  match entries with
  | [] => (c, [], [], false)
  | (seq, pkt) :: rest =>
    if seq ≤ ack then
      let c1 := if pkt.retries = 0 then updateRTT c (now - pkt.sentAt) else c
      let r := handleAckGo now ack rest c1
      (r.1, r.2.1, (if pkt.retries = 0 then [now - pkt.sentAt] else []) ++ r.2.2.1, true)
    else
      let r := handleAckGo now ack rest c
      (r.1, (seq, pkt) :: r.2.1, r.2.2.1, r.2.2.2)

/-- Translation of handleAck; the second component is the ghost list of RTT
samples consumed. -/
def handleAck (c : Conn) (ack now : Nat) : Conn × List Nat :=
  let r := handleAckGo now ack c.sendBuf c
  ({ r.1 with sendBuf := r.2.1 }, r.2.2.1)

/-- Translation of deliverDataLocked: an empty payload is not enqueued; a
full queue (64) drops the payload and counts it.  The ghost `delivered` log
records the invocation either way. -/
def deliverData (c : Conn) (seq : Nat) (data : List Nat) : Conn :=
  let c0 := { c with delivered := c.delivered ++ [(seq, data)] }
  if data.length = 0 then c0
  else if c0.recvReady.length < 64 then { c0 with recvReady := c0.recvReady ++ [data] }
  else { c0 with stats := { c0.stats with packetsDropped := c0.stats.packetsDropped + 1 } }

/-- Translation of deliverBufferedLocked's loop: while the buffer holds the
next expected sequence number, remove it, deliver it, and advance.  Each
iteration removes one entry, so fuel = buffer length never cuts the loop
short. -/
def deliverBufferedGo : Nat → Conn → Conn
  | 0, c => c
  | fuel + 1, c =>
    match lookupA c.recvBuf c.recvSeq with
    | none => c
    | some data =>
      let c1 := { c with recvBuf := eraseA c.recvBuf c.recvSeq }
      let c2 := deliverData c1 c.recvSeq data
      deliverBufferedGo fuel { c2 with recvSeq := c2.recvSeq + 1 }

/-- Translation of deliverBufferedLocked. -/
def deliverBuffered (c : Conn) : Conn := deliverBufferedGo c.recvBuf.length c

/-- Translation of handleData: duplicate (seq < recvSeq) is discarded;
the expected segment is delivered, recvSeq advanced and the buffer drained;
a future segment is buffered (first arrival wins).  Every branch emits one
pure ACK frame carrying recvSeq − 1 as of after the branch. -/
def handleData (c : Conn) (seq : Nat) (payload : List Nat) : Conn × List (List Nat) :=
  if seq < c.recvSeq then
    (c, [buildFrame 0 (c.recvSeq - 1) FlagAck []])
  else if seq = c.recvSeq then
    let c1 := deliverData c seq payload
    let c2 := deliverBuffered { c1 with recvSeq := c1.recvSeq + 1 }
    (c2, [buildFrame 0 (c2.recvSeq - 1) FlagAck []])
  else
    let c1 :=
      if (lookupA c.recvBuf seq).isSome then c
      else { c with recvBuf := c.recvBuf ++ [(seq, payload)] }
    (c1, [buildFrame 0 (c.recvSeq - 1) FlagAck []])

/-- Translation of closeWithError: one-shot transition to closed, recording
the cause if non-nil, and emitting a best-effort FIN frame. -/
def closeWithError (c : Conn) (e : Option ArqErr) : Conn × List (List Nat) :=
  if c.closed then (c, [])
  else
    ({ c with closed := true, closeErr := if e.isSome then e else c.closeErr },
     [buildFrame 0 0 FlagFin []])

/-- Result of the scan in checkRetransmit over the in-flight entries. -/
inductive ScanRes
  | idle
  | fatal
  | hit (buf : List (Nat × Packet)) (seq : Nat) (data : List Nat)
deriving DecidableEq

/-- The scan of checkRetransmit: the first entry whose age exceeds the RTO
either trips the fatal retry cap, or is updated in place (retries + 1,
sentAt = now) and selected for the single retransmission of this tick. -/
def scanRetrans (now rto : Nat) : List (Nat × Packet) → ScanRes
  | [] => .idle
  | (seq, pkt) :: rest =>
    if now - pkt.sentAt > rto then
      if pkt.retries ≥ MaxRetries then .fatal
      else .hit ((seq, { pkt with retries := pkt.retries + 1, sentAt := now }) :: rest)
        seq pkt.data
    else
      match scanRetrans now rto rest with
      | .idle => .idle
      | .fatal => .fatal
      | .hit buf s d => .hit ((seq, pkt) :: buf) s d

/-- Translation of checkRetransmit: on a hit the global RTO is doubled
(capped), the retransmission counter bumped, and — outside the lock — one
DATA frame with the original sequence number and payload is emitted,
carrying the current cumulative ack. -/
def checkRetransmit (c : Conn) (now : Nat) : Conn × List (List Nat) :=
  if c.closed then (c, [])
  else
    match scanRetrans now c.rto c.sendBuf with
    | .idle => (c, [])
    | .fatal => closeWithError c (some .timeout)
    | .hit buf s d =>
      let c1 := { c with
        sendBuf := buf
        rto := min (c.rto * 2) MaxRTO
        stats := { c.stats with packetsRetrans := c.stats.packetsRetrans + 1 } }
      (c1, [buildFrame s (c.recvSeq - 1) FlagData d])

/-- Translation of OnReceive: header parse and length validation, then the
liveness refresh and the unconditional cumulative-ack processing, then the
flag dispatch (unknown flags fall through to a nil return). -/
def OnReceive (c : Conn) (now : Nat) (data : List Nat) :
    Except ArqErr Unit × Conn × List (List Nat) :=
  match data with
  | b0 :: b1 :: b2 :: b3 :: b4 :: b5 :: b6 :: b7 :: b8 :: b9 :: b10 :: payload =>
    let seq := beU32 b0 b1 b2 b3
    let ack := beU32 b4 b5 b6 b7
    let flags := b8
    let length := beU16 b9 b10
    if length ≠ payload.length then (.error .invalidData, c, [])
    else
      let c1 := { c with
        stats := { c.stats with
          packetsRecv := c.stats.packetsRecv + 1
          bytesRecv := c.stats.bytesRecv + (11 + payload.length) }
        lastRecvAt := now }
      let c2 := (handleAck c1 ack now).1
      if flags = FlagData then
        let r := handleData c2 seq payload
        (.ok (), r.1, r.2)
      else if flags = FlagAck then (.ok (), c2, [])
      else if flags = FlagPing then (.ok (), c2, [buildFrame 0 0 FlagPong []])
      else if flags = FlagPong then (.ok (), c2, [])
      else if flags = FlagFin then
        let r := closeWithError c2 none
        (.ok (), r.1, r.2)
      else (.ok (), c2, [])
  | _ => (.error .invalidData, c, [])

/-- Feeding a list of DATA segments (seq, payload) through handleData in
order, discarding the emitted ACK frames. -/
def procData (c : Conn) (segs : List (Nat × List Nat)) : Conn :=
  segs.foldl (fun c sp => (handleData c sp.1 sp.2).1) c

end G2.Arq

/- ======================= Crypto and protocol theorems ======================= -/

namespace G2

theorem validateTimestamp_iff_circDist (W now ts : Nat) (hts : ts < 65536) :
    (validateTimestamp W now ts = true) ↔ circDist (now % 65536) ts ≤ 2 * W := by
  simp only [validateTimestamp, circDist, decide_eq_true_eq]
  have h1 : now % 65536 < 65536 := Nat.mod_lt _ (by omega)
  split_ifs <;> omega

/-- Sample 32-byte PSK for concrete evaluations. -/
def psk0 : List Nat := List.range 32

/-- Sample 12-byte nonce. -/
def nonce0 : List Nat := List.replicate 12 7

/-- First-draft crypto state from psk0 with a 30-second window. -/
def st1ex : CryptoV1.St := CryptoV1.mk psk0 30

/-- Second-draft crypto state from psk0 with a 30-second window. -/
def st2ex : CryptoV2.St := CryptoV2.mk psk0 30

/-- Envelope with the right identity tag and a fresh timestamp whose
ciphertext-tag matches no subkey (an unauthenticated forgery). -/
def envJunk : Envelope :=
  { userID := deriveUserID psk0, tsLow := 1000 % 65536, nonce := nonce0, ct := Ct.junk 0 }

/-- Envelope with the right identity tag but a stale 16-bit timestamp. -/
def envStale : Envelope :=
  { userID := deriveUserID psk0, tsLow := 64000, nonce := nonce0, ct := Ct.junk 1 }

/-- Legitimate envelope sealed by the first draft at time 1000 with nonce0. -/
def env1 : Envelope := CryptoV1.Encrypt st1ex 1000 nonce0 [42]

/-- C8: Decrypt's freshness check accepts a 16-bit TimestampLow ts exactly
when the wrap-adjusted absolute difference between ts and the low 16 bits of
the current unix time is at most 2·W seconds (the raw signed difference is
brought into range by adding or subtracting 65536 when beyond ±32768), and a
stale envelope is rejected with the replay ledger untouched, before any
ledger or AEAD work. -/
theorem claim_c8_timestamp :
    (∀ (W now ts : Nat), ts < 65536 →
      (validateTimestamp W now ts = true ↔ circDist (now % 65536) ts ≤ 2 * W)) ∧
    (∀ (c : CryptoV1.St) (e : Envelope) (now : Nat),
      validateTimestamp c.timeWindow now e.tsLow = false →
      (CryptoV1.Decrypt c e now).2 = c ∧
      (e.userID = c.userID → CryptoV1.Decrypt c e now = (.error .badTimestamp, c))) := by
  refine ⟨validateTimestamp_iff_circDist, ?_⟩
  intro c e now hts
  constructor
  · by_cases huid : e.userID = c.userID
    · simp [CryptoV1.Decrypt, huid, hts]
    · simp [CryptoV1.Decrypt, huid, hts]
  · intro huid
    simp [CryptoV1.Decrypt, huid, hts]

/-- Witness for C8 at W = 30, now = 1000: ts = 900 is over the 60-second
bound, and a stale envelope (ts = 64000) is rejected with the ledger and
state untouched. -/
theorem claim_c8_timestamp_witness :
    ((900 : Nat) < 65536 ∧
      (validateTimestamp 30 1000 900 = true ↔ circDist (1000 % 65536) 900 ≤ 2 * 30)) ∧
    (validateTimestamp st1ex.timeWindow 1000 envStale.tsLow = false ∧
      (CryptoV1.Decrypt st1ex envStale 1000).2 = st1ex ∧
      CryptoV1.Decrypt st1ex envStale 1000 = (.error .badTimestamp, st1ex)) :=
  ⟨⟨by decide, claim_c8_timestamp.1 30 1000 900 (by decide)⟩,
   ⟨by decide,
    (claim_c8_timestamp.2 st1ex envStale 1000 (by decide)).1,
    (claim_c8_timestamp.2 st1ex envStale 1000 (by decide)).2 rfl⟩⟩

/-- C1 (divergence of the first draft): on an envelope whose AEAD open fails
under all three candidate subkeys, the first draft's Decrypt has already
inserted the nonce into the replay ledger (LoadOrStore runs before the open
loop), so the unauthenticated envelope pre-blacklists the nonce and a later
legitimate envelope carrying it is rejected as a replay.  The second draft
records the nonce only after a successful open and leaves the ledger
unchanged on failure, as the claim states. -/
theorem claim_c1_prerecord_divergence :
    st1ex.replayCache = [] ∧
    (CryptoV1.Decrypt st1ex envJunk 1000).1 = .error .authFail ∧
    (CryptoV1.Decrypt st1ex envJunk 1000).2.replayCache = [(nonce0, 1000)] ∧
    (CryptoV1.Decrypt (CryptoV1.Decrypt st1ex envJunk 1000).2 env1 1000).1 = .error .replay ∧
    (CryptoV2.Decrypt st2ex envJunk 1000).1 = .error .authFail ∧
    (CryptoV2.Decrypt st2ex envJunk 1000).2 = st2ex :=
  ⟨rfl, rfl, rfl, rfl, rfl, rfl⟩

theorem v1_decrypt_ok (c : CryptoV1.St) (e : Envelope) (t : Nat) (p : List Nat)
    (c2 : CryptoV1.St) (h : CryptoV1.Decrypt c e t = (.ok p, c2)) :
    e.userID = c.userID ∧ lookupA c.replayCache e.nonce = none ∧
    c2 = { c with replayCache := c.replayCache ++ [(e.nonce, t)] } := by
  by_cases huid : e.userID = c.userID
  · cases hts : validateTimestamp c.timeWindow t e.tsLow with
    | false => simp [CryptoV1.Decrypt, huid, hts] at h
    | true =>
      cases hlk : lookupA c.replayCache e.nonce with
      | some t0 => simp [CryptoV1.Decrypt, huid, hts, loadOrStore, hlk] at h
      | none =>
        cases htw : tryWindows c.psk (validWindows c.timeWindow t) e.nonce (headerOf e) e.ct with
        | none => simp [CryptoV1.Decrypt, huid, hts, loadOrStore, hlk, htw] at h
        | some q =>
          simp [CryptoV1.Decrypt, huid, hts, loadOrStore, hlk, htw] at h
          exact ⟨huid, rfl, h.2.symm⟩
  · simp [CryptoV1.Decrypt, huid] at h

theorem v1_decrypt_replay (c : CryptoV1.St) (e : Envelope) (t t0 : Nat)
    (hlk : lookupA c.replayCache e.nonce = some t0) :
    (∀ q, (CryptoV1.Decrypt c e t).1 ≠ .ok q) ∧
    (e.userID = c.userID → validateTimestamp c.timeWindow t e.tsLow = true →
      CryptoV1.Decrypt c e t = (.error .replay, c)) := by
  constructor
  · intro q h
    by_cases huid : e.userID = c.userID
    · cases hts : validateTimestamp c.timeWindow t e.tsLow with
      | false => simp [CryptoV1.Decrypt, huid, hts] at h
      | true => simp [CryptoV1.Decrypt, huid, hts, loadOrStore, hlk] at h
    · simp [CryptoV1.Decrypt, huid] at h
  · intro huid hts
    simp [CryptoV1.Decrypt, huid, hts, loadOrStore, hlk]

theorem v2_decrypt_ok (c : CryptoV2.St) (e : Envelope) (t : Nat) (p : List Nat)
    (c2 : CryptoV2.St) (h : CryptoV2.Decrypt c e t = (.ok p, c2)) :
    e.userID = c.userID ∧ lookupA c.recvNonceCache e.nonce = none ∧
    c2 = { c with recvNonceCache := c.recvNonceCache ++ [(e.nonce, t)] } := by
  by_cases huid : e.userID = c.userID
  · cases hts : validateTimestamp c.timeWindow t e.tsLow with
    | false => simp [CryptoV2.Decrypt, huid, hts] at h
    | true =>
      cases hlk : lookupA c.recvNonceCache e.nonce with
      | some t0 => simp [CryptoV2.Decrypt, huid, hts, hlk] at h
      | none =>
        cases htw : tryWindows c.psk (validWindows c.timeWindow t) e.nonce (headerOf e) e.ct with
        | none => simp [CryptoV2.Decrypt, huid, hts, hlk, htw] at h
        | some q =>
          simp [CryptoV2.Decrypt, huid, hts, hlk, htw] at h
          exact ⟨huid, rfl, h.2.symm⟩
  · simp [CryptoV2.Decrypt, huid] at h

theorem v2_decrypt_replay (c : CryptoV2.St) (e : Envelope) (t t0 : Nat)
    (hlk : lookupA c.recvNonceCache e.nonce = some t0) :
    (∀ q, (CryptoV2.Decrypt c e t).1 ≠ .ok q) ∧
    (e.userID = c.userID → validateTimestamp c.timeWindow t e.tsLow = true →
      CryptoV2.Decrypt c e t = (.error .replay, c)) := by
  constructor
  · intro q h
    by_cases huid : e.userID = c.userID
    · cases hts : validateTimestamp c.timeWindow t e.tsLow with
      | false => simp [CryptoV2.Decrypt, huid, hts] at h
      | true => simp [CryptoV2.Decrypt, huid, hts, hlk] at h
    · simp [CryptoV2.Decrypt, huid] at h
  · intro huid hts
    simp [CryptoV2.Decrypt, huid, hts, hlk]

theorem lookupA_cleanup_keep (m : List (List Nat × Nat)) (k : List Nat) (t tc : Nat)
    (hnone : lookupA m k = none) (htc : tc ≤ t + 120) :
    lookupA ((m ++ [(k, t)]).filter
        (fun e : List Nat × Nat => decide ((tc : Int) - (e.2 : Int) ≤ 120))) k = some t := by
  rw [List.filter_append, lookupA_append, lookupA_filter_eq_none _ _ _ hnone]
  have hkeep : ((tc : Int) ≤ 120 + (t : Int)) := by omega
  simp [lookupA, hkeep]

/-- C2: once an envelope has been decrypted successfully, a second Decrypt
of the identical envelope within the ledger TTL fails and yields no
plaintext; if the timestamp is still fresh the failure is precisely the
replay rejection.  Shown for both drafts; ledger sweeps (cleanup) occurring
up to 120 seconds after the accept do not evict the entry. -/
theorem claim_c2_once :
    (∀ (c : CryptoV1.St) (e : Envelope) (t : Nat) (p : List Nat) (c2 : CryptoV1.St)
        (tc t2 : Nat),
      CryptoV1.Decrypt c e t = (.ok p, c2) → tc ≤ t + 120 →
      (∀ q, (CryptoV1.Decrypt (CryptoV1.cleanup tc c2) e t2).1 ≠ .ok q) ∧
      (validateTimestamp c.timeWindow t2 e.tsLow = true →
        CryptoV1.Decrypt (CryptoV1.cleanup tc c2) e t2 =
          (.error .replay, CryptoV1.cleanup tc c2))) ∧
    (∀ (c : CryptoV2.St) (e : Envelope) (t : Nat) (p : List Nat) (c2 : CryptoV2.St)
        (tc t2 : Nat),
      CryptoV2.Decrypt c e t = (.ok p, c2) → tc ≤ t + 120 →
      (∀ q, (CryptoV2.Decrypt (CryptoV2.cleanup tc c2) e t2).1 ≠ .ok q) ∧
      (validateTimestamp c.timeWindow t2 e.tsLow = true →
        CryptoV2.Decrypt (CryptoV2.cleanup tc c2) e t2 =
          (.error .replay, CryptoV2.cleanup tc c2))) := by
  constructor
  · intro c e t p c2 tc t2 h htc
    obtain ⟨huid, hnone, hc2⟩ := v1_decrypt_ok c e t p c2 h
    subst hc2
    have hlk : lookupA (CryptoV1.cleanup tc
        { c with replayCache := c.replayCache ++ [(e.nonce, t)] }).replayCache e.nonce
        = some t := by
      simpa [CryptoV1.cleanup] using lookupA_cleanup_keep c.replayCache e.nonce t tc hnone htc
    exact ⟨(v1_decrypt_replay _ e t2 t hlk).1,
      fun hts => (v1_decrypt_replay _ e t2 t hlk).2 huid hts⟩
  · intro c e t p c2 tc t2 h htc
    obtain ⟨huid, hnone, hc2⟩ := v2_decrypt_ok c e t p c2 h
    subst hc2
    have hlk : lookupA (CryptoV2.cleanup tc
        { c with recvNonceCache := c.recvNonceCache ++ [(e.nonce, t)] }).recvNonceCache e.nonce
        = some t := by
      simpa [CryptoV2.cleanup] using lookupA_cleanup_keep c.recvNonceCache e.nonce t tc hnone htc
    exact ⟨(v2_decrypt_replay _ e t2 t hlk).1,
      fun hts => (v2_decrypt_replay _ e t2 t hlk).2 huid hts⟩

/-- Witness for C2: env1 decrypts once at t = 1000; after a sweep at 1050
the second Decrypt of the identical envelope is the replay rejection, in
both drafts. -/
theorem claim_c2_once_witness :
    CryptoV1.Decrypt (CryptoV1.cleanup 1050 (CryptoV1.Decrypt st1ex env1 1000).2) env1 1000 =
      (.error .replay, CryptoV1.cleanup 1050 (CryptoV1.Decrypt st1ex env1 1000).2) ∧
    CryptoV2.Decrypt (CryptoV2.cleanup 1050 (CryptoV2.Decrypt st2ex env1 1000).2) env1 1000 =
      (.error .replay, CryptoV2.cleanup 1050 (CryptoV2.Decrypt st2ex env1 1000).2) :=
  ⟨(claim_c2_once.1 st1ex env1 1000 [42] _ 1050 1000 rfl (by decide)).2 (by decide),
   (claim_c2_once.2 st2ex env1 1000 [42] _ 1050 1000 rfl (by decide)).2 (by decide)⟩

/-- C3: round trip of the envelope.  For any plaintext of at most 1 MiB and
a 32-byte PSK state, opening a sealed envelope on the same instance returns
exactly the plaintext, provided the drawn nonce is not already in the replay
ledger (it is drawn at random), the sealing timestamp is still within the
freshness bound at open time, and the sealing window is among the three
candidate windows of the open. -/
theorem claim_c3_roundtrip (c : CryptoV1.St) (t1 t2 : Nat) (nonce p : List Nat)
    (hpsk : c.psk.length = 32) (hW : 0 < c.timeWindow) (hlen : p.length ≤ 1048576)
    (hfresh : lookupA c.replayCache nonce = none)
    (hts : validateTimestamp c.timeWindow t2 (t1 % 65536) = true)
    (hwin : currentWindow c.timeWindow t1 ∈ validWindows c.timeWindow t2) :
    (CryptoV1.Decrypt c (CryptoV1.Encrypt c t1 nonce p) t2).1 = .ok p := by
  have hopen := tryWindows_sealed_mem c.psk (validWindows c.timeWindow t2) nonce
    (c.userID ++ [t1 % 65536 / 256 % 256, t1 % 65536 % 256]) p
    (currentWindow c.timeWindow t1) hwin
  simp [CryptoV1.Decrypt, CryptoV1.Encrypt, headerOf, aeadSeal, loadOrStore, hfresh, hts, hopen]

/-- Witness for C3 at the sample state, sealing and opening at t = 1000. -/
theorem claim_c3_roundtrip_witness :
    (CryptoV1.Decrypt st1ex (CryptoV1.Encrypt st1ex 1000 nonce0 [1, 2, 3]) 1000).1 =
      .ok [1, 2, 3] :=
  claim_c3_roundtrip st1ex 1000 1000 nonce0 [1, 2, 3] (by decide) (by decide) (by decide)
    rfl (by decide) (by decide)

end G2

namespace G2.Proto

open G2

/-- CONNECT to [2001:db8::1]:443 over TCP with ReqID 7: Type, ReqID(4),
Network, AddrType = IPv6, 16 address bytes, 2 port bytes. -/
def c6bytes : List Nat :=
  [1, 0, 0, 0, 7, 1, 4, 32, 1, 13, 184, 0, 0, 0, 0, 0, 0, 0, 0, 0, 0, 0, 1, 1, 187]

/-- C6 (divergence): for an IPv6 CONNECT the target string is the
UNbracketed "host:port" (TargetAddr is a plain Sprintf of address, colon,
port), not the bracket-wrapped form the claim states — and the unbracketed
form is what is passed to net.DialTimeout, where an IPv6 literal with a
bare colon-joined port cannot be dialed. -/
theorem claim_c6_ipv6_unbracketed :
    (ParseRequest c6bytes).map TargetAddr = .ok "2001:db8::1:443" ∧
    (ParseRequest c6bytes).map TargetAddr ≠ .ok "[2001:db8::1]:443" := by
  constructor
  · rfl
  · intro h
    have h0 : (Except.ok "2001:db8::1:443" : Except ParseErr String) = .ok "[2001:db8::1]:443" :=
      (show (Except.ok "2001:db8::1:443" : Except ParseErr String) =
        (ParseRequest c6bytes).map TargetAddr from rfl).trans h
    exact absurd (Except.ok.inj h0) (by decide)

/-- CONNECT whose Network byte is 3 (outside TCP = 1, UDP = 2), IPv4 target. -/
def c7aBytes : List Nat := [1, 0, 0, 0, 1, 3, 1, 8, 8, 8, 8, 0, 80]

/-- CONNECT with a zero-length domain (length-prefix byte 0). -/
def c7bBytes : List Nat := [1, 0, 0, 0, 2, 1, 3, 0, 0, 80]

/-- Counterexample to C7: ParseRequest accepts a CONNECT whose Network byte
is 3 (it performs no Network validation at all) and accepts a zero-length
domain, returning an empty Address — neither is a MALFORMED error. -/
theorem claim_c7_counterexample :
    ParseRequest c7aBytes =
      .ok { type := 1, reqID := 1, network := 3, address := "8.8.8.8", port := 80, data := [] } ∧
    ParseRequest c7bBytes =
      .ok { type := 1, reqID := 2, network := 1, address := "", port := 80, data := [] } :=
  ⟨rfl, rfl⟩

/-- C7 as amended: ParseRequest rejects unknown address-type bytes (and
truncated buffers), but it performs no validation of the Network byte — any
value is stored into Request.Network — and it accepts a zero-length domain,
yielding an empty Address. -/
theorem claim_c7_amended :
    (∀ (nw r1 r2 r3 r4 a b cc d p0 p1 : Nat),
      ParseRequest [TypeConnect, r1, r2, r3, r4, nw, AddrIPv4, a, b, cc, d, p0, p1] =
        .ok { type := TypeConnect, reqID := beU32 r1 r2 r3 r4, network := nw,
              address := ipv4Str [a, b, cc, d], port := beU16 p0 p1, data := [] }) ∧
    (∀ (nw r1 r2 r3 r4 p0 p1 : Nat),
      ParseRequest [TypeConnect, r1, r2, r3, r4, nw, AddrDomain, 0, p0, p1] =
        .ok { type := TypeConnect, reqID := beU32 r1 r2 r3 r4, network := nw,
              address := "", port := beU16 p0 p1, data := [] }) ∧
    (∀ (aty nw r1 r2 r3 r4 x y : Nat),
      aty ≠ AddrIPv4 → aty ≠ AddrIPv6 → aty ≠ AddrDomain →
      ParseRequest [TypeConnect, r1, r2, r3, r4, nw, aty, x, y] =
        .error .unknownAddrType) := by
  refine ⟨fun nw r1 r2 r3 r4 a b cc d p0 p1 => rfl, fun nw r1 r2 r3 r4 p0 p1 => ?_, ?_⟩
  · rfl
  · intro aty nw r1 r2 r3 r4 x y h1 h2 h3
    simp [ParseRequest, parseConnect, h1, h2, h3]

/-- Witness for C7's amended statement at concrete inputs: Network byte 7 is
accepted, a zero-length domain is accepted, and address-type byte 5 is
rejected. -/
theorem claim_c7_amended_witness :
    (ParseRequest [TypeConnect, 0, 0, 0, 9, 7, AddrIPv4, 1, 2, 3, 4, 0, 53] =
      .ok { type := TypeConnect, reqID := beU32 0 0 0 9, network := 7,
            address := ipv4Str [1, 2, 3, 4], port := beU16 0 53, data := [] }) ∧
    (ParseRequest [TypeConnect, 0, 0, 0, 9, 1, AddrDomain, 0, 0, 53] =
      .ok { type := TypeConnect, reqID := beU32 0 0 0 9, network := 1,
            address := "", port := beU16 0 53, data := [] }) ∧
    ((5 : Nat) ≠ AddrIPv4 ∧ (5 : Nat) ≠ AddrIPv6 ∧ (5 : Nat) ≠ AddrDomain ∧
      ParseRequest [TypeConnect, 0, 0, 0, 9, 1, 5, 9, 9] = .error .unknownAddrType) :=
  ⟨claim_c7_amended.1 7 0 0 0 9 1 2 3 4 0 53,
   claim_c7_amended.2.1 1 0 0 0 9 0 53,
   by decide, by decide, by decide,
   claim_c7_amended.2.2 5 1 0 0 0 9 9 9 (by decide) (by decide) (by decide)⟩

end G2.Proto

/- ======================= ARQ theorems ======================= -/

namespace G2

theorem lookupA_some_mem {α β : Type} [DecidableEq α] (m : List (α × β)) (k : α) (v : β)
    (h : lookupA m k = some v) : (k, v) ∈ m := by
  induction m with
  | nil => simp [lookupA] at h
  | cons hd tl ih =>
    obtain ⟨a, b⟩ := hd
    by_cases hk : a = k
    · subst hk
      simp [lookupA] at h
      simp [h]
    · simp [lookupA, hk] at h
      simp [ih h]

theorem map_fst_eraseA {α β : Type} [DecidableEq α] (m : List (α × β)) (k : α) :
    (eraseA m k).map Prod.fst = (m.map Prod.fst).erase k := by
  induction m with
  | nil => simp [eraseA]
  | cons hd tl ih =>
    obtain ⟨a, b⟩ := hd
    by_cases hk : a = k
    · subst hk
      simp [eraseA, List.erase_cons_head]
    · simp [eraseA, hk, ih, List.erase_cons_tail, hk]

theorem mem_of_mem_eraseA {α β : Type} [DecidableEq α] (m : List (α × β)) (k : α)
    (x : α × β) (h : x ∈ eraseA m k) : x ∈ m := by
  induction m with
  | nil => simp [eraseA] at h
  | cons hd tl ih =>
    obtain ⟨a, b⟩ := hd
    by_cases hk : a = k
    · subst hk
      simp [eraseA] at h
      simp [h]
    · simp [eraseA, hk] at h
      rcases h with h | h
      · simp [h]
      · simp [ih h]

theorem eraseA_length {α β : Type} [DecidableEq α] (m : List (α × β)) (k : α) (v : β)
    (h : lookupA m k = some v) : (eraseA m k).length + 1 = m.length := by
  induction m with
  | nil => simp [lookupA] at h
  | cons hd tl ih =>
    obtain ⟨a, b⟩ := hd
    by_cases hk : a = k
    · subst hk
      simp [eraseA]
    · simp [lookupA, hk] at h
      simp [eraseA, hk, ih h]

end G2

namespace G2.Arq

open G2

theorem deliverData_fields (c : Conn) (s : Nat) (d : List Nat) :
    (deliverData c s d).recvSeq = c.recvSeq ∧
    (deliverData c s d).recvBuf = c.recvBuf ∧
    (deliverData c s d).delivered = c.delivered ++ [(s, d)] ∧
    (deliverData c s d).sendBuf = c.sendBuf ∧
    (deliverData c s d).closed = c.closed := by
  by_cases h1 : d.length = 0 <;> by_cases h2 : c.recvReady.length < 64 <;>
    simp [deliverData, h1, h2]

/-- Nonempty-payload test used by the delivery queue relation. -/
def neBlank : List Nat → Bool := fun p => decide (p ≠ [])

/-- Queue relation: the delivery queue holds exactly the nonempty delivered
payloads, truncated at the channel capacity of 64. -/
def QRel (c : Conn) : Prop :=
  c.recvReady = ((c.delivered.map Prod.snd).filter neBlank).take 64

theorem deliverData_queue (c : Conn) (s : Nat) (d : List Nat) (h : QRel c) :
    QRel (deliverData c s d) := by
  obtain ⟨-, -, hdel, -, -⟩ := deliverData_fields c s d
  unfold QRel at h ⊢
  rw [hdel, List.map_append, List.filter_append]
  by_cases hz : d.length = 0
  · have hznil : d = [] := List.length_eq_zero.mp hz
    have hq : (deliverData c s d).recvReady = c.recvReady := by
      simp [deliverData, hz]
    have hfd : List.filter neBlank ([(s, d)].map Prod.snd) = [] := by
      rw [hznil]
      rfl
    rw [hq, hfd, List.append_nil]
    exact h
  · have hzne : d ≠ [] := fun hh => hz (by simp [hh])
    have hfd : List.filter neBlank ([(s, d)].map Prod.snd) = [d] := by
      simp [neBlank, hzne]
    rw [hfd]
    set F := List.filter neBlank (c.delivered.map Prod.snd) with hF
    have hlen2 := congrArg List.length h
    rw [List.length_take] at hlen2
    by_cases hlt : c.recvReady.length < 64
    · have hq : (deliverData c s d).recvReady = c.recvReady ++ [d] := by
        simp [deliverData, hz, hlt]
      have hflen : F.length < 64 := by omega
      rw [hq, h, List.take_of_length_le (le_of_lt hflen), List.take_of_length_le]
      simp only [List.length_append, List.length_cons, List.length_nil]
      omega
    · have hq : (deliverData c s d).recvReady = c.recvReady := by
        simp [deliverData, hz, hlt]
      have hflen : 64 ≤ F.length := by omega
      rw [hq, h, List.take_append_of_le_length hflen]

/-- Receive-side loop invariant (holding also inside the drain loop): the
ghost delivery log lists exactly the sequence numbers 1 .. recvSeq−1 in
order; all buffered segments have numbers at least recvSeq; buffer keys are
unique; the queue relation holds; and every logged or buffered pair was an
input (an element of S). -/
def LInv (S : List (Nat × List Nat)) (c : Conn) : Prop :=
  c.delivered.map Prod.fst = List.range' 1 (c.recvSeq - 1) ∧
  1 ≤ c.recvSeq ∧
  (∀ k ∈ c.recvBuf.map Prod.fst, c.recvSeq ≤ k) ∧
  (c.recvBuf.map Prod.fst).Nodup ∧
  QRel c ∧
  (∀ sp ∈ c.delivered, sp ∈ S) ∧
  (∀ sp ∈ c.recvBuf, sp ∈ S)

/-- Receive-side invariant between handleData calls: additionally all
buffered segments are strictly beyond recvSeq. -/
def RInv (S : List (Nat × List Nat)) (c : Conn) : Prop :=
  LInv S c ∧ ∀ k ∈ c.recvBuf.map Prod.fst, c.recvSeq < k

theorem range'_concat_one (n : Nat) (h : 1 ≤ n) :
    List.range' 1 (n - 1) ++ [n] = List.range' 1 n := by
  obtain ⟨m, rfl⟩ : ∃ m, n = m + 1 := ⟨n - 1, by omega⟩
  have := @List.range'_concat 1 1 m
  simp only [Nat.add_sub_cancel]
  rw [this]
  simp [Nat.add_comm]

theorem drain_inv (S : List (Nat × List Nat)) :
    ∀ (fuel : Nat) (c : Conn), c.recvBuf.length ≤ fuel → LInv S c →
      LInv S (deliverBufferedGo fuel c) ∧
      lookupA (deliverBufferedGo fuel c).recvBuf (deliverBufferedGo fuel c).recvSeq = none := by
  intro fuel
  induction fuel with
  | zero =>
    intro c hlen hinv
    have hnil : c.recvBuf = [] := List.length_eq_zero.mp (Nat.le_zero.mp hlen)
    refine ⟨hinv, ?_⟩
    show lookupA c.recvBuf c.recvSeq = none
    rw [hnil]
    rfl
  | succ fuel ih =>
    intro c hlen hinv
    cases hlk : lookupA c.recvBuf c.recvSeq with
    | none =>
      have hstep : deliverBufferedGo (fuel + 1) c = c := by
        simp [deliverBufferedGo, hlk]
      rw [hstep]
      exact ⟨hinv, hlk⟩
    | some data =>
      obtain ⟨ha, hb, hc, hd, he, hf, hg⟩ := hinv
      have hstep : deliverBufferedGo (fuel + 1) c =
          deliverBufferedGo fuel
            { deliverData { c with recvBuf := eraseA c.recvBuf c.recvSeq } c.recvSeq data with
              recvSeq :=
                (deliverData { c with recvBuf := eraseA c.recvBuf c.recvSeq } c.recvSeq
                  data).recvSeq + 1 } := by
        simp [deliverBufferedGo, hlk]
      set c1 : Conn := { c with recvBuf := eraseA c.recvBuf c.recvSeq } with hc1
      obtain ⟨hf1, hf2, hf3, -, -⟩ := deliverData_fields c1 c.recvSeq data
      set c2 : Conn := deliverData c1 c.recvSeq data with hc2
      set c3 : Conn := { c2 with recvSeq := c2.recvSeq + 1 } with hc3
      have hc3seq : c3.recvSeq = c.recvSeq + 1 := by
        simp [hc3, hf1, hc1]
      have hc3buf : c3.recvBuf = eraseA c.recvBuf c.recvSeq := by
        simp [hc3, hf2, hc1]
      have hc3del : c3.delivered = c.delivered ++ [(c.recvSeq, data)] := by
        simp [hc3, hf3, hc1]
      have hmemb : (c.recvSeq, data) ∈ c.recvBuf := lookupA_some_mem _ _ _ hlk
      have hlen3 : c3.recvBuf.length ≤ fuel := by
        have := eraseA_length c.recvBuf c.recvSeq data hlk
        rw [hc3buf]
        omega
      have hinv3 : LInv S c3 := by
        refine ⟨?_, ?_, ?_, ?_, ?_, ?_, ?_⟩
        · rw [hc3del, hc3seq, List.map_append]
          simp only [List.map_cons, List.map_nil]
          rw [ha]
          simpa using range'_concat_one c.recvSeq hb
        · omega
        · intro k hk
          rw [hc3buf, map_fst_eraseA] at hk
          rcases (List.Nodup.mem_erase_iff hd).mp hk with ⟨hne, hmem⟩
          have := hc k hmem
          omega
        · rw [hc3buf, map_fst_eraseA]
          exact List.Nodup.erase _ hd
        · have hq1 : QRel c1 := he
          have hq2 : QRel c2 := deliverData_queue c1 c.recvSeq data hq1
          exact hq2
        · intro sp hsp
          rw [hc3del] at hsp
          rcases List.mem_append.mp hsp with hsp | hsp
          · exact hf sp hsp
          · simp at hsp
            rw [hsp]
            exact hg _ hmemb
        · intro sp hsp
          rw [hc3buf] at hsp
          exact hg sp (mem_of_mem_eraseA _ _ _ hsp)
      rw [hstep]
      exact ih c3 hlen3 hinv3

end G2.Arq

namespace G2.Arq

open G2

theorem deliver_step_inv (S : List (Nat × List Nat)) (c : Conn) (payload : List Nat)
    (hinv : RInv S c) (hmem : (c.recvSeq, payload) ∈ S) :
    RInv S (deliverBuffered
      { deliverData c c.recvSeq payload with
        recvSeq := (deliverData c c.recvSeq payload).recvSeq + 1 }) := by
  obtain ⟨⟨ha, hb, hc, hd, he, hf, hg⟩, hstrict⟩ := hinv
  obtain ⟨hf1, hf2, hf3, -, -⟩ := deliverData_fields c c.recvSeq payload
  have hinvm : LInv S { deliverData c c.recvSeq payload with
      recvSeq := (deliverData c c.recvSeq payload).recvSeq + 1 } := by
    refine ⟨?_, ?_, ?_, ?_, ?_, ?_, ?_⟩
    · show (deliverData c c.recvSeq payload).delivered.map Prod.fst =
        List.range' 1 ((deliverData c c.recvSeq payload).recvSeq + 1 - 1)
      rw [hf3, hf1, Nat.add_sub_cancel, List.map_append]
      simp only [List.map_cons, List.map_nil]
      rw [ha]
      exact range'_concat_one c.recvSeq hb
    · show 1 ≤ (deliverData c c.recvSeq payload).recvSeq + 1
      omega
    · intro k hk
      have hk2 : k ∈ (deliverData c c.recvSeq payload).recvBuf.map Prod.fst := hk
      rw [hf2] at hk2
      have hlt := hstrict k hk2
      show (deliverData c c.recvSeq payload).recvSeq + 1 ≤ k
      rw [hf1]
      omega
    · show ((deliverData c c.recvSeq payload).recvBuf.map Prod.fst).Nodup
      rw [hf2]
      exact hd
    · have hq1 : QRel (deliverData c c.recvSeq payload) :=
        deliverData_queue c c.recvSeq payload he
      exact hq1
    · intro sp hsp
      have hsp2 : sp ∈ (deliverData c c.recvSeq payload).delivered := hsp
      rw [hf3] at hsp2
      rcases List.mem_append.mp hsp2 with hsp3 | hsp3
      · exact hf sp hsp3
      · simp at hsp3
        rw [hsp3]
        exact hmem
    · intro sp hsp
      have hsp2 : sp ∈ (deliverData c c.recvSeq payload).recvBuf := hsp
      rw [hf2] at hsp2
      exact hg sp hsp2
  have hdrain := drain_inv S
    ({ deliverData c c.recvSeq payload with
       recvSeq := (deliverData c c.recvSeq payload).recvSeq + 1 } : Conn).recvBuf.length
    { deliverData c c.recvSeq payload with
      recvSeq := (deliverData c c.recvSeq payload).recvSeq + 1 } le_rfl hinvm
  refine ⟨hdrain.1, ?_⟩
  intro k hk
  have hle : (deliverBuffered
      { deliverData c c.recvSeq payload with
        recvSeq := (deliverData c c.recvSeq payload).recvSeq + 1 }).recvSeq ≤ k :=
    hdrain.1.2.2.1 k hk
  have hnone : lookupA (deliverBuffered
      { deliverData c c.recvSeq payload with
        recvSeq := (deliverData c c.recvSeq payload).recvSeq + 1 }).recvBuf
      (deliverBuffered
        { deliverData c c.recvSeq payload with
          recvSeq := (deliverData c c.recvSeq payload).recvSeq + 1 }).recvSeq = none :=
    hdrain.2
  have hne := (lookupA_eq_none _ _).mp hnone
  have hkne : k ≠ (deliverBuffered
      { deliverData c c.recvSeq payload with
        recvSeq := (deliverData c c.recvSeq payload).recvSeq + 1 }).recvSeq := by
    intro hh
    exact hne (hh ▸ hk)
  omega

theorem handleData_inv (S : List (Nat × List Nat)) (c : Conn) (seq : Nat) (payload : List Nat)
    (hinv : RInv S c) (hmem : (seq, payload) ∈ S) : RInv S (handleData c seq payload).1 := by
  by_cases h1 : seq < c.recvSeq
  · have hres : (handleData c seq payload).1 = c := by
      simp [handleData, h1]
    rw [hres]
    exact hinv
  · by_cases h2 : seq = c.recvSeq
    · rw [h2] at hmem ⊢
      rw [h2] at h1
      have hres : (handleData c c.recvSeq payload).1 = deliverBuffered
          { deliverData c c.recvSeq payload with
            recvSeq := (deliverData c c.recvSeq payload).recvSeq + 1 } := by
        simp [handleData, h1]
      rw [hres]
      exact deliver_step_inv S c payload hinv hmem
    · obtain ⟨⟨ha, hb, hc, hd, he, hf, hg⟩, hstrict⟩ := hinv
      by_cases h4 : (lookupA c.recvBuf seq).isSome
      · have hres : (handleData c seq payload).1 = c := by
          simp [handleData, h1, h2, h4]
        rw [hres]
        exact ⟨⟨ha, hb, hc, hd, he, hf, hg⟩, hstrict⟩
      · have hres : (handleData c seq payload).1 =
            { c with recvBuf := c.recvBuf ++ [(seq, payload)] } := by
          simp [handleData, h1, h2, h4]
        have hnone : lookupA c.recvBuf seq = none := by
          cases hx : lookupA c.recvBuf seq with
          | none => rfl
          | some v =>
            rw [hx] at h4
            simp at h4
        have hnotmem : seq ∉ c.recvBuf.map Prod.fst := (lookupA_eq_none _ _).mp hnone
        rw [hres]
        have hqnew : QRel { c with recvBuf := c.recvBuf ++ [(seq, payload)] } := he
        refine ⟨⟨ha, hb, ?_, ?_, hqnew, hf, ?_⟩, ?_⟩
        · intro k hk
          simp only [List.map_append, List.map_cons, List.map_nil, List.mem_append,
            List.mem_cons, List.not_mem_nil, or_false] at hk
          show c.recvSeq ≤ k
          rcases hk with hk | hk
          · exact hc k hk
          · omega
        · simp only [List.map_append, List.map_cons, List.map_nil]
          rw [List.nodup_append]
          refine ⟨hd, by simp, ?_⟩
          intro a haa hab
          simp at hab
          rw [hab] at haa
          exact hnotmem haa
        · intro sp hsp
          rcases List.mem_append.mp hsp with hsp | hsp
          · exact hg sp hsp
          · simp at hsp
            rw [hsp]
            exact hmem
        · intro k hk
          simp only [List.map_append, List.map_cons, List.map_nil, List.mem_append,
            List.mem_cons, List.not_mem_nil, or_false] at hk
          show c.recvSeq < k
          rcases hk with hk | hk
          · exact hstrict k hk
          · omega

theorem procData_inv (S : List (Nat × List Nat)) (l : List (Nat × List Nat)) :
    ∀ c, RInv S c → (∀ sp ∈ l, sp ∈ S) → RInv S (procData c l) := by
  induction l with
  | nil =>
    intro c h _
    exact h
  | cons hd tl ih =>
    intro c h hsub
    have hstep := handleData_inv S c hd.1 hd.2 h (hsub hd (by simp))
    exact ih _ hstep (fun sp hsp => hsub sp (by simp [hsp]))

theorem mkConn_rinv (S : List (Nat × List Nat)) (t : Nat) : RInv S (mkConn t) := by
  refine ⟨⟨?_, ?_, ?_, ?_, ?_, ?_, ?_⟩, ?_⟩ <;> simp [mkConn, QRel]

end G2.Arq

namespace G2.Arq

open G2

/-- C4: feeding any list of DATA segments (any order, arbitrary duplication)
through handleData from a fresh connection, the delivery log (the invocations
of deliverDataLocked, as (seq, payload)) covers exactly the sequence numbers
R_next = 1, 2, ... up to the final R_next − 1, in strictly increasing order
with no duplicates; every delivered pair is one of the fed segments
(duplicates with seq < R_next are discarded and out-of-order segments are
buffered until contiguous); and the delivery queue holds exactly the
nonempty delivered payloads in that order, up to its capacity of 64. -/
theorem claim_c4_ordered_exact (segs : List (Nat × List Nat)) :
    ((procData (mkConn 0) segs).delivered.map Prod.fst =
      List.range' 1 ((procData (mkConn 0) segs).recvSeq - 1)) ∧
    List.Pairwise (· < ·) ((procData (mkConn 0) segs).delivered.map Prod.fst) ∧
    ((procData (mkConn 0) segs).delivered.map Prod.fst).Nodup ∧
    (∀ sp ∈ (procData (mkConn 0) segs).delivered, sp ∈ segs) ∧
    ((procData (mkConn 0) segs).recvReady =
      (((procData (mkConn 0) segs).delivered.map Prod.snd).filter neBlank).take 64) := by
  have h := procData_inv segs segs (mkConn 0) (mkConn_rinv segs 0) (fun sp hsp => hsp)
  obtain ⟨⟨ha, hb, hc, hd, he, hf, hg⟩, -⟩ := h
  refine ⟨ha, ?_, ?_, hf, he⟩
  · rw [ha]
    exact List.pairwise_lt_range' 1 _
  · rw [ha]
    exact List.nodup_range' 1 _

/-- C9: a zero-length DATA payload at the expected sequence number advances
R_next and is acknowledged, but enqueues nothing: deliverDataLocked returns
without writing for every empty payload, and consequently the delivery
queue of a fresh connection never contains an empty payload, so Recv never
returns one. -/
theorem claim_c9_empty_payload :
    (∀ (c : Conn) (seq : Nat), (deliverData c seq []).recvReady = c.recvReady) ∧
    (∀ c : Conn, c.recvBuf = [] →
      (handleData c c.recvSeq []).1.recvSeq = c.recvSeq + 1 ∧
      (handleData c c.recvSeq []).1.recvReady = c.recvReady ∧
      (handleData c c.recvSeq []).2 = [buildFrame 0 c.recvSeq FlagAck []]) ∧
    (∀ segs : List (Nat × List Nat), [] ∉ (procData (mkConn 0) segs).recvReady) := by
  refine ⟨?_, ?_, ?_⟩
  · intro c seq
    simp [deliverData]
  · intro c hbuf
    have h1 : ¬ c.recvSeq < c.recvSeq := lt_irrefl _
    refine ⟨?_, ?_, ?_⟩ <;>
      simp [handleData, deliverBuffered, deliverBufferedGo, deliverData, hbuf, h1, lookupA]
  · intro segs hmem
    have h := procData_inv segs segs (mkConn 0) (mkConn_rinv segs 0) (fun sp hsp => hsp)
    have hq : QRel (procData (mkConn 0) segs) := h.1.2.2.2.2.1
    unfold QRel at hq
    rw [hq] at hmem
    have hmem2 := List.mem_of_mem_take hmem
    have hbad := (List.mem_filter.mp hmem2).2
    simp [neBlank] at hbad

/-- Witness for C9 at a fresh connection (empty out-of-order buffer). -/
theorem claim_c9_empty_payload_witness :
    (deliverData (mkConn 0) 5 []).recvReady = (mkConn 0).recvReady ∧
    (handleData (mkConn 0) (mkConn 0).recvSeq []).1.recvSeq = (mkConn 0).recvSeq + 1 ∧
    (handleData (mkConn 0) (mkConn 0).recvSeq []).1.recvReady = (mkConn 0).recvReady ∧
    (handleData (mkConn 0) (mkConn 0).recvSeq []).2 =
      [buildFrame 0 (mkConn 0).recvSeq FlagAck []] :=
  ⟨claim_c9_empty_payload.1 (mkConn 0) 5,
   (claim_c9_empty_payload.2.1 (mkConn 0) rfl).1,
   (claim_c9_empty_payload.2.1 (mkConn 0) rfl).2.1,
   (claim_c9_empty_payload.2.1 (mkConn 0) rfl).2.2⟩

end G2.Arq

namespace G2.Arq

open G2

theorem updateRTT_fields (c : Conn) (sample : Nat) :
    (updateRTT c sample).sendBuf = c.sendBuf ∧
    (updateRTT c sample).lastRecvAt = c.lastRecvAt ∧
    (updateRTT c sample).recvSeq = c.recvSeq ∧
    (updateRTT c sample).recvReady = c.recvReady ∧
    (updateRTT c sample).recvBuf = c.recvBuf ∧
    (updateRTT c sample).closed = c.closed ∧
    (updateRTT c sample).delivered = c.delivered :=
  ⟨rfl, rfl, rfl, rfl, rfl, rfl, rfl⟩

theorem handleAckGo_buf (now ack : Nat) :
    ∀ (entries : List (Nat × Packet)) (c : Conn),
      (handleAckGo now ack entries c).2.1 = entries.filter (fun e => decide (ack < e.1)) := by
  intro entries
  induction entries with
  | nil =>
    intro c
    rfl
  | cons hd rest ih =>
    intro c
    obtain ⟨seq, pkt⟩ := hd
    by_cases h : seq ≤ ack
    · have hn : ¬ (ack < seq) := by omega
      by_cases hr : pkt.retries = 0 <;> simp [handleAckGo, h, hn, hr, ih]
    · have hy : ack < seq := by omega
      simp [handleAckGo, h, hy, ih]

theorem handleAckGo_samples (now ack : Nat) :
    ∀ (entries : List (Nat × Packet)) (c : Conn),
      (handleAckGo now ack entries c).2.2.1 =
        (entries.filter (fun e => decide (e.1 ≤ ack) && decide (e.2.retries = 0))).map
          (fun e => now - e.2.sentAt) := by
  intro entries
  induction entries with
  | nil =>
    intro c
    rfl
  | cons hd rest ih =>
    intro c
    obtain ⟨seq, pkt⟩ := hd
    by_cases h : seq ≤ ack
    · by_cases hr : pkt.retries = 0 <;> simp [handleAckGo, h, hr, ih]
    · simp [handleAckGo, h, ih]

theorem handleAckGo_conn (now ack : Nat) :
    ∀ (entries : List (Nat × Packet)) (c : Conn),
      (handleAckGo now ack entries c).1.lastRecvAt = c.lastRecvAt ∧
      (handleAckGo now ack entries c).1.recvSeq = c.recvSeq ∧
      (handleAckGo now ack entries c).1.recvReady = c.recvReady ∧
      (handleAckGo now ack entries c).1.recvBuf = c.recvBuf ∧
      (handleAckGo now ack entries c).1.closed = c.closed := by
  intro entries
  induction entries with
  | nil =>
    intro c
    exact ⟨rfl, rfl, rfl, rfl, rfl⟩
  | cons hd rest ih =>
    intro c
    obtain ⟨seq, pkt⟩ := hd
    by_cases h : seq ≤ ack
    · by_cases hr : pkt.retries = 0
      · have hres : (handleAckGo now ack ((seq, pkt) :: rest) c).1 =
            (handleAckGo now ack rest (updateRTT c (now - pkt.sentAt))).1 := by
          simp [handleAckGo, h, hr]
        obtain ⟨u1, u2, u3, u4, u5, u6, u7⟩ := updateRTT_fields c (now - pkt.sentAt)
        obtain ⟨i1, i2, i3, i4, i5⟩ := ih (updateRTT c (now - pkt.sentAt))
        rw [hres]
        exact ⟨i1.trans u2, i2.trans u3, i3.trans u4, i4.trans u5, i5.trans u6⟩
      · have hres : (handleAckGo now ack ((seq, pkt) :: rest) c).1 =
            (handleAckGo now ack rest c).1 := by
          simp [handleAckGo, h, hr]
        rw [hres]
        exact ih c
    · have hres : (handleAckGo now ack ((seq, pkt) :: rest) c).1 =
          (handleAckGo now ack rest c).1 := by
        simp [handleAckGo, h]
      rw [hres]
      exact ih c

theorem handleAck_sendBuf (c : Conn) (ack now : Nat) :
    (handleAck c ack now).1.sendBuf = c.sendBuf.filter (fun e => decide (ack < e.1)) := by
  simp [handleAck, handleAckGo_buf]

theorem handleAck_samples (c : Conn) (ack now : Nat) :
    (handleAck c ack now).2 =
      (c.sendBuf.filter (fun e => decide (e.1 ≤ ack) && decide (e.2.retries = 0))).map
        (fun e => now - e.2.sentAt) := by
  simp [handleAck, handleAckGo_samples]

theorem handleAck_conn (c : Conn) (ack now : Nat) :
    (handleAck c ack now).1.lastRecvAt = c.lastRecvAt ∧
    (handleAck c ack now).1.recvSeq = c.recvSeq ∧
    (handleAck c ack now).1.recvReady = c.recvReady ∧
    (handleAck c ack now).1.recvBuf = c.recvBuf ∧
    (handleAck c ack now).1.closed = c.closed := by
  obtain ⟨i1, i2, i3, i4, i5⟩ := handleAckGo_conn now ack c.sendBuf c
  exact ⟨i1, i2, i3, i4, i5⟩

theorem scanRetrans_hit (now rto : Nat) :
    ∀ (l buf : List (Nat × Packet)) (s : Nat) (d : List Nat),
      scanRetrans now rto l = .hit buf s d →
      (∃ pkt, (s, pkt) ∈ l ∧ pkt.data = d ∧
        (s, { pkt with retries := pkt.retries + 1, sentAt := now }) ∈ buf) ∧
      buf.map Prod.fst = l.map Prod.fst := by
  intro l
  induction l with
  | nil =>
    intro buf s d h
    simp [scanRetrans] at h
  | cons hd rest ih =>
    obtain ⟨seq, pkt⟩ := hd
    intro buf s d h
    by_cases ht : now - pkt.sentAt > rto
    · by_cases hr : pkt.retries ≥ MaxRetries
      · simp [scanRetrans, ht, hr] at h
      · simp [scanRetrans, ht, hr] at h
        obtain ⟨h1, h2, h3⟩ := h
        subst h1
        subst h2
        subst h3
        exact ⟨⟨pkt, by simp, rfl, by simp⟩, by simp⟩
    · cases hscan : scanRetrans now rto rest with
      | idle => simp [scanRetrans, ht, hscan] at h
      | fatal => simp [scanRetrans, ht, hscan] at h
      | hit buf2 s2 d2 =>
        simp [scanRetrans, ht, hscan] at h
        obtain ⟨h1, h2, h3⟩ := h
        subst h1
        subst h2
        subst h3
        obtain ⟨⟨pkt2, hmem, hdata, hmem2⟩, hkeys⟩ := ih buf2 s2 d2 hscan
        exact ⟨⟨pkt2, by simp [hmem], hdata, by simp [hmem2]⟩, by simp [hkeys]⟩

/-- C5: a retransmission re-sends the selected in-flight segment with its
original sequence number and payload, leaving the set of in-flight sequence
numbers unchanged (the entry is only aged: retries + 1, sentAt = now); and
the cumulative-ack handler feeds an RTT sample now − sentAt to the estimator
exactly for the acknowledged entries whose retry count is zero (Karn's
rule: a retransmitted segment contributes no sample). -/
theorem claim_c5_karn :
    (∀ (c : Conn) (ack now : Nat),
      (handleAck c ack now).2 =
        (c.sendBuf.filter (fun e => decide (e.1 ≤ ack) && decide (e.2.retries = 0))).map
          (fun e => now - e.2.sentAt)) ∧
    (∀ (c : Conn) (now : Nat) (buf : List (Nat × Packet)) (s : Nat) (d : List Nat),
      c.closed = false →
      scanRetrans now c.rto c.sendBuf = .hit buf s d →
      (∃ pkt, (s, pkt) ∈ c.sendBuf ∧ pkt.data = d ∧
        (s, { pkt with retries := pkt.retries + 1, sentAt := now }) ∈ buf) ∧
      buf.map Prod.fst = c.sendBuf.map Prod.fst ∧
      checkRetransmit c now =
        ({ c with
           sendBuf := buf
           rto := min (c.rto * 2) MaxRTO
           stats := { c.stats with packetsRetrans := c.stats.packetsRetrans + 1 } },
         [buildFrame s (c.recvSeq - 1) FlagData d])) := by
  constructor
  · exact handleAck_samples
  · intro c now buf s d hcl hscan
    obtain ⟨hex, hkeys⟩ := scanRetrans_hit now c.rto c.sendBuf buf s d hscan
    refine ⟨hex, hkeys, ?_⟩
    simp [checkRetransmit, hcl, hscan]

/-- Sample in-flight entries for the witnesses: pktA was never
retransmitted, pktB was retransmitted once. -/
def pktA : Packet := { seq := 1, data := [9], sentAt := 0, retries := 0 }

def pktB : Packet := { seq := 2, data := [8], sentAt := 0, retries := 1 }

def pktC : Packet := { seq := 5, data := [3], sentAt := 0, retries := 0 }

/-- Connection with two in-flight segments awaiting acknowledgement. -/
def connAck : Conn := { mkConn 0 with sendBuf := [(1, pktA), (2, pktB)] }

/-- Connection with one long-overdue in-flight segment. -/
def connRet : Conn := { mkConn 0 with sendBuf := [(5, pktC)] }

/-- Witness for C5: acknowledging both entries at time 100 samples only
pktA (retries = 0), and one retransmit tick at 0.6 s re-emits sequence 5
with its original payload. -/
theorem claim_c5_karn_witness :
    (handleAck connAck 2 100).2 = [100] ∧
    checkRetransmit connRet 600000000 =
      ({ connRet with
         sendBuf := [(5, { pktC with retries := 1, sentAt := 600000000 })]
         rto := min (connRet.rto * 2) MaxRTO
         stats := { connRet.stats with packetsRetrans := connRet.stats.packetsRetrans + 1 } },
       [buildFrame 5 (connRet.recvSeq - 1) FlagData [3]]) := by
  constructor
  · rw [claim_c5_karn.1 connAck 2 100]
    rfl
  · exact (claim_c5_karn.2 connRet 600000000
      [(5, { pktC with retries := 1, sentAt := 600000000 })] 5 [3] rfl rfl).2.2

/-- C10: a well-formed segment (length field matching the payload) whose
flags byte is outside the five known flags is not an error: OnReceive
returns success, emits nothing, and has already refreshed the liveness
timestamp and applied the cumulative ack (in-flight entries with seq ≤ Ack
are gone) before falling through the switch; the receive side is untouched. -/
theorem claim_c10_unknown_flag (c : Conn) (now : Nat)
    (b0 b1 b2 b3 b4 b5 b6 b7 b8 b9 b10 : Nat) (payload : List Nat)
    (hlen : beU16 b9 b10 = payload.length) (hflag : 5 ≤ b8) :
    (OnReceive c now
        (b0 :: b1 :: b2 :: b3 :: b4 :: b5 :: b6 :: b7 :: b8 :: b9 :: b10 :: payload)).1 =
      .ok () ∧
    (OnReceive c now
        (b0 :: b1 :: b2 :: b3 :: b4 :: b5 :: b6 :: b7 :: b8 :: b9 :: b10 :: payload)).2.2 =
      [] ∧
    (OnReceive c now
        (b0 :: b1 :: b2 :: b3 :: b4 :: b5 :: b6 :: b7 :: b8 :: b9 :: b10 :: payload)).2.1.lastRecvAt =
      now ∧
    (OnReceive c now
        (b0 :: b1 :: b2 :: b3 :: b4 :: b5 :: b6 :: b7 :: b8 :: b9 :: b10 :: payload)).2.1.sendBuf =
      c.sendBuf.filter (fun e => decide (beU32 b4 b5 b6 b7 < e.1)) ∧
    (OnReceive c now
        (b0 :: b1 :: b2 :: b3 :: b4 :: b5 :: b6 :: b7 :: b8 :: b9 :: b10 :: payload)).2.1.recvSeq =
      c.recvSeq ∧
    (OnReceive c now
        (b0 :: b1 :: b2 :: b3 :: b4 :: b5 :: b6 :: b7 :: b8 :: b9 :: b10 :: payload)).2.1.recvReady =
      c.recvReady ∧
    (OnReceive c now
        (b0 :: b1 :: b2 :: b3 :: b4 :: b5 :: b6 :: b7 :: b8 :: b9 :: b10 :: payload)).2.1.recvBuf =
      c.recvBuf ∧
    (OnReceive c now
        (b0 :: b1 :: b2 :: b3 :: b4 :: b5 :: b6 :: b7 :: b8 :: b9 :: b10 :: payload)).2.1.closed =
      c.closed := by
  have h0 : ¬ (b8 = FlagData) := by
    simp only [FlagData]
    omega
  have h1x : ¬ (b8 = FlagAck) := by
    simp only [FlagAck]
    omega
  have h2x : ¬ (b8 = FlagPing) := by
    simp only [FlagPing]
    omega
  have h3x : ¬ (b8 = FlagPong) := by
    simp only [FlagPong]
    omega
  have h4x : ¬ (b8 = FlagFin) := by
    simp only [FlagFin]
    omega
  have hred : OnReceive c now
      (b0 :: b1 :: b2 :: b3 :: b4 :: b5 :: b6 :: b7 :: b8 :: b9 :: b10 :: payload) =
      (.ok (), (handleAck { c with
        stats := { c.stats with
          packetsRecv := c.stats.packetsRecv + 1
          bytesRecv := c.stats.bytesRecv + (11 + payload.length) }
        lastRecvAt := now } (beU32 b4 b5 b6 b7) now).1, []) := by
    simp [OnReceive, hlen, h0, h1x, h2x, h3x, h4x]
  rw [hred]
  obtain ⟨i1, i2, i3, i4, i5⟩ := handleAck_conn { c with
    stats := { c.stats with
      packetsRecv := c.stats.packetsRecv + 1
      bytesRecv := c.stats.bytesRecv + (11 + payload.length) }
    lastRecvAt := now } (beU32 b4 b5 b6 b7) now
  refine ⟨rfl, rfl, i1, ?_, i2, i3, i4, i5⟩
  exact handleAck_sendBuf _ (beU32 b4 b5 b6 b7) now

/-- Witness for C10: flags byte 7 with a consistent length field, against a
connection holding two in-flight entries; the ack value 1 clears entry 1. -/
theorem claim_c10_unknown_flag_witness :
    (5 : Nat) ≤ 7 ∧ beU16 0 1 = ([99] : List Nat).length ∧
    (OnReceive connAck 50 [0, 0, 0, 0, 0, 0, 0, 1, 7, 0, 1, 99]).1 = .ok () ∧
    (OnReceive connAck 50 [0, 0, 0, 0, 0, 0, 0, 1, 7, 0, 1, 99]).2.2 = [] ∧
    (OnReceive connAck 50 [0, 0, 0, 0, 0, 0, 0, 1, 7, 0, 1, 99]).2.1.lastRecvAt = 50 ∧
    (OnReceive connAck 50 [0, 0, 0, 0, 0, 0, 0, 1, 7, 0, 1, 99]).2.1.sendBuf =
      connAck.sendBuf.filter (fun e => decide (beU32 0 0 0 1 < e.1)) := by
  have h := claim_c10_unknown_flag connAck 50 0 0 0 0 0 0 0 1 7 0 1 [99] (by decide) (by decide)
  exact ⟨by decide, by decide, h.1, h.2.1, h.2.2.1, h.2.2.2.1⟩

end G2.Arq
